import Mathlib

/-!
Verification of the URL-shortening microservice (src/app.js) against its
natural-language specification.  The in-memory registry (`urlDatabase`) is
embedded as an association list with JS-object (extensional map) semantics;
the three endpoint handlers become pure state-passing functions.
-/

set_option maxRecDepth 4096

/-- A stored URL record: `{ originalUrl, expiresAt, custom, clicks }`
(app.js line 33 and lines 148-153).  `expiresAt` is in milliseconds since
the epoch, as produced by `Date.now()`. -/
structure UrlRecord where
  originalUrl : String
  expiresAt : Nat
  custom : Bool
  clicks : Nat
deriving DecidableEq

/-- The in-memory registry `urlDatabase` (app.js line 34): a map from short
code to record, represented as an association list read through `lookup`. -/
abbrev Registry := List (String × UrlRecord)

/-- Property read `urlDatabase[code]` (first matching key, as for a JS object
whose keys are unique). -/
def lookup (db : Registry) (code : String) : Option UrlRecord :=
  match db with
  | [] => none
  | (k, v) :: rest => if k = code then some v else lookup rest code

/-- Property write `urlDatabase[code] = entry`: replace the binding if the key
is present, otherwise add it. -/
def setEntry (db : Registry) (code : String) (entry : UrlRecord) : Registry :=
  match db with
  | [] => [(code, entry)]
  | (k, v) :: rest =>
    if k = code then (code, entry) :: rest else (k, v) :: setEntry rest code entry

/-- `delete urlDatabase[code]` (app.js line 182): the key is removed. -/
def delEntry (db : Registry) (code : String) : Registry :=
  db.filter fun kv => kv.1 ≠ code

theorem lookup_setEntry_self (db : Registry) (code : String) (entry : UrlRecord) :
    lookup (setEntry db code entry) code = some entry := by
  induction db with
  | nil => simp [setEntry, lookup]
  | cons kv rest ih =>
    obtain ⟨k, v⟩ := kv
    by_cases h : k = code
    · simp [setEntry, lookup, h]
    · simp [setEntry, lookup, h, ih]

theorem lookup_setEntry_ne (db : Registry) (code code2 : String) (entry : UrlRecord)
    (h : code2 ≠ code) : lookup (setEntry db code entry) code2 = lookup db code2 := by
  induction db with
  | nil => simp [setEntry, lookup, Ne.symm h]
  | cons kv rest ih =>
    obtain ⟨k, v⟩ := kv
    by_cases hk : k = code
    · subst hk
      simp [setEntry, lookup, Ne.symm h]
    · simp only [setEntry, if_neg hk, lookup]
      by_cases hk2 : k = code2
      · simp [hk2]
      · simp [hk2, ih]

theorem lookup_delEntry_self (db : Registry) (code : String) :
    lookup (delEntry db code) code = none := by
  induction db with
  | nil => simp [delEntry, lookup]
  | cons kv rest ih =>
    obtain ⟨k, v⟩ := kv
    by_cases h : k = code
    · simpa [delEntry, lookup, h] using ih
    · simpa [delEntry, lookup, h] using ih

theorem lookup_isSome_mem_keys (db : Registry) (code : String)
    (h : (lookup db code).isSome = true) : code ∈ db.map Prod.fst := by
  induction db with
  | nil => simp [lookup] at h
  | cons kv rest ih =>
    obtain ⟨k, v⟩ := kv
    by_cases hk : k = code
    · simp [hk]
    · simp [lookup, hk] at h
      simp [ih h]

/-- One character of the class `[a-zA-Z0-9]` from the regular expression in
`isValidShortCode` (app.js line 79). -/
def isAlnumChar (c : Char) : Bool :=
  ('a' ≤ c && c ≤ 'z') || ('A' ≤ c && c ≤ 'Z') || ('0' ≤ c && c ≤ '9')

/-- The test `/^[a-zA-Z0-9]+$/.test(code)` (app.js line 79): at least one
character, and every character in the class. -/
def matchesAlnumRegex (s : String) : Bool :=
  !s.data.isEmpty && s.data.all isAlnumChar

/-- `isValidShortCode` (app.js lines 77-87): alphanumeric via the regular
expression, then length between 4 and 15 inclusive. -/
def isValidShortCode (code : String) : Bool :=
  if !matchesAlnumRegex code then false
  else if code.length < 4 || code.length > 15 then false
  else true

theorem isValidShortCode_ne_empty (code : String)
    (h : isValidShortCode code = true) : code ≠ "" := by
  intro he
  subst he
  simp [isValidShortCode, matchesAlnumRegex] at h

/-! ### The short-code generator

`generateShortCode` (app.js lines 66-72) draws candidates from the third-party
`shortid` library, which is not part of this repository's sources, in a
do-while loop until the candidate is not a key of `urlDatabase`. -/

/-- Little-endian base-62 digits with explicit fuel (structural recursion so
that everything evaluates). -/
def b62digitsAux : Nat → Nat → List Nat
  | 0, _ => []
  | fuel + 1, n => if n = 0 then [] else n % 62 :: b62digitsAux fuel (n / 62)

/-- Little-endian base-62 digits of `n`; `n` itself is always enough fuel. -/
def b62digits (n : Nat) : List Nat := b62digitsAux n n

/-- Value of a little-endian base-62 digit list. -/
def ofB62 : List Nat → Nat
  | [] => 0
  | d :: ds => d + 62 * ofB62 ds

theorem ofB62_b62digitsAux (fuel : Nat) :
    ∀ n : Nat, n ≤ fuel → ofB62 (b62digitsAux fuel n) = n := by
  induction fuel with
  | zero =>
    intro n hn
    interval_cases n
    simp [b62digitsAux, ofB62]
  | succ fuel ih =>
    intro n hn
    by_cases h0 : n = 0
    · simp [b62digitsAux, h0, ofB62]
    · have hdiv : n / 62 ≤ fuel := by
        have : n / 62 < n := Nat.div_lt_self (Nat.pos_of_ne_zero h0) (by omega)
        omega
      simp only [b62digitsAux, if_neg h0, ofB62, ih (n / 62) hdiv]
      omega

theorem b62digits_injective : Function.Injective b62digits := by
  intro a b h
  have ha := ofB62_b62digitsAux a a le_rfl
  have hb := ofB62_b62digitsAux b b le_rfl
  have : ofB62 (b62digits a) = ofB62 (b62digits b) := by rw [h]
  simpa [b62digits, ha, hb] using this

theorem b62digitsAux_lt (fuel : Nat) :
    ∀ n d : Nat, d ∈ b62digitsAux fuel n → d < 62 := by
  induction fuel with
  | zero => intro n d hd; simp [b62digitsAux] at hd
  | succ fuel ih =>
    intro n d hd
    by_cases h0 : n = 0
    · simp [b62digitsAux, h0] at hd
    · simp only [b62digitsAux, if_neg h0, List.mem_cons] at hd
      rcases hd with hd | hd
      · omega
      · exact ih (n / 62) d hd

/-- Modelled from the spec: the `shortid` identifier scheme's alphabet.  The
library itself is a third-party dependency absent from the sources; spec
section 4.1 describes "a short, collision-resistant identifier scheme (e.g.,
base62)" and section 9 allows "any collision-resistant short alphanumeric
generator" as a substitute, so the model uses the 62 alphanumeric characters. -/
def shortidAlphabet : List Char :=
  "ABCDEFGHIJKLMNOPQRSTUVWXYZabcdefghijklmnopqrstuvwxyz0123456789".data

/-- The alphabet character for one base-62 digit. -/
def dChar (d : Nat) : Char :=
  if h : d < shortidAlphabet.length then shortidAlphabet.get ⟨d, h⟩ else 'A'

/-- Index of a character in the alphabet, a left inverse of `dChar` on digits. -/
def dVal (c : Char) : Nat := shortidAlphabet.indexOf c

theorem dVal_dChar : ∀ d : Nat, d < 62 → dVal (dChar d) = d := by decide

theorem isAlnumChar_dChar : ∀ d : Nat, isAlnumChar (dChar d) = true := by
  intro d
  by_cases h : d < 62
  · revert d
    decide
  · have hlen : shortidAlphabet.length = 62 := by decide
    simp only [dChar, hlen]
    rw [dif_neg (by omega)]
    decide

/-- Modelled from the spec: one draw of `shortid.generate()` (app.js line 69).
The library is not in the sources; following spec sections 4.1 and 9 it is
modelled as an injective alphanumeric scheme, successive draws being indexed
by a seed: a fixed alphabet character followed by the base-62 digits of the
seed. -/
def shortidGenerate (seed : Nat) : String :=
  ⟨'A' :: (b62digits seed).map dChar⟩

theorem shortidGenerate_injective : Function.Injective shortidGenerate := by
  intro a b h
  have hdata : 'A' :: (b62digits a).map dChar = 'A' :: (b62digits b).map dChar :=
    congrArg String.data h
  have hmap : (b62digits a).map dChar = (b62digits b).map dChar := by
    injection hdata
  have hback : ∀ n : Nat, ((b62digits n).map dChar).map dVal = b62digits n := by
    intro n
    rw [List.map_map]
    have hcongr : ∀ d ∈ b62digits n, (dVal ∘ dChar) d = id d := by
      intro d hd
      exact dVal_dChar d (b62digitsAux_lt n n d hd)
    rw [List.map_congr_left hcongr, List.map_id]
  have : b62digits a = b62digits b := by
    rw [← hback a, ← hback b, hmap]
  exact b62digits_injective this

theorem shortidGenerate_alnum (seed : Nat) :
    matchesAlnumRegex (shortidGenerate seed) = true := by
  simp only [matchesAlnumRegex, shortidGenerate, Bool.and_eq_true, List.all_eq_true]
  refine ⟨by simp, ?_⟩
  intro c hc
  simp only [List.mem_cons, List.mem_map] at hc
  rcases hc with hc | ⟨d, _, rfl⟩
  · subst hc; decide
  · exact isAlnumChar_dChar d

/-- The do-while of `generateShortCode` (app.js lines 68-70): draw a candidate,
retry while it is already a key.  Fuel bounds the number of draws; the source
has no bound, and `genLoop_succeeds` shows `db.length + 1` draws always find a
fresh code, so the fuelled loop is an exact model of the terminating runs. -/
def genLoop (db : Registry) : Nat → Nat → Option String
  | 0, _ => none
  | fuel + 1, seed =>
    if (lookup db (shortidGenerate seed)).isSome then genLoop db fuel (seed + 1)
    else some (shortidGenerate seed)

theorem genLoop_none (db : Registry) (fuel : Nat) :
    ∀ seed : Nat, genLoop db fuel seed = none →
      ∀ j : Nat, j < fuel → (lookup db (shortidGenerate (seed + j))).isSome = true := by
  induction fuel with
  | zero => intro seed _ j hj; omega
  | succ fuel ih =>
    intro seed h j hj
    by_cases hs : (lookup db (shortidGenerate seed)).isSome = true
    · rcases Nat.eq_zero_or_pos j with hj0 | hjpos
      · simpa [hj0] using hs
      · have h2 : genLoop db fuel (seed + 1) = none := by
          simpa [genLoop, hs] using h
        have := ih (seed + 1) h2 (j - 1) (by omega)
        have harith : seed + 1 + (j - 1) = seed + j := by omega
        rwa [harith] at this
    · simp [genLoop, hs] at h

theorem genLoop_some (db : Registry) (fuel : Nat) :
    ∀ seed c, genLoop db fuel seed = some c →
      lookup db c = none ∧ ∃ s : Nat, c = shortidGenerate s := by
  induction fuel with
  | zero => intro seed c h; simp [genLoop] at h
  | succ fuel ih =>
    intro seed c h
    by_cases hs : (lookup db (shortidGenerate seed)).isSome = true
    · exact ih (seed + 1) c (by simpa [genLoop, hs] using h)
    · have hc : shortidGenerate seed = c := by simpa [genLoop, hs] using h
      refine ⟨?_, seed, hc.symm⟩
      rw [← hc]
      exact Option.not_isSome_iff_eq_none.mp (by simpa using hs)

theorem genLoop_succeeds (db : Registry) : genLoop db (db.length + 1) 0 ≠ none := by
  intro h
  have hall := genLoop_none db (db.length + 1) 0 h
  set cands : List String := (List.range (db.length + 1)).map shortidGenerate with hc
  have hnodup : cands.Nodup := (List.nodup_range _).map shortidGenerate_injective
  have hsub : ∀ x ∈ cands, x ∈ db.map Prod.fst := by
    intro x hx
    rcases List.mem_map.mp hx with ⟨j, hj, rfl⟩
    exact lookup_isSome_mem_keys db _ (by simpa using hall j (List.mem_range.mp hj))
  have hcard1 : cands.toFinset.card = db.length + 1 := by
    rw [List.toFinset_card_of_nodup hnodup, hc, List.length_map, List.length_range]
  have hcard2 : cands.toFinset.card ≤ db.length := by
    calc cands.toFinset.card ≤ (db.map Prod.fst).toFinset.card := by
          apply Finset.card_le_card
          intro x hx
          exact List.mem_toFinset.mpr (hsub x (List.mem_toFinset.mp hx))
      _ ≤ (db.map Prod.fst).length := List.toFinset_card_le _
      _ = db.length := List.length_map _ _
  omega

/-- `generateShortCode` (app.js lines 66-72): run the draw-until-fresh loop.
`db.length + 1` draws provably suffice (`genLoop_succeeds`), so the fallback
draw is dead code. -/
def generateShortCode (db : Registry) : String :=
  (genLoop db (db.length + 1) 0).getD (shortidGenerate 0)

theorem generateShortCode_fresh (db : Registry) :
    lookup db (generateShortCode db) = none := by
  rcases h : genLoop db (db.length + 1) 0 with _ | c
  · exact absurd h (genLoop_succeeds db)
  · have := (genLoop_some db (db.length + 1) 0 c h).1
    simpa [generateShortCode, h] using this

theorem generateShortCode_alnum (db : Registry) :
    matchesAlnumRegex (generateShortCode db) = true := by
  rcases h : genLoop db (db.length + 1) 0 with _ | c
  · simp [generateShortCode, h, shortidGenerate_alnum]
  · rcases (genLoop_some db (db.length + 1) 0 c h).2 with ⟨s, rfl⟩
    simp [generateShortCode, h, shortidGenerate_alnum]

/-! ### The three endpoints (app.js lines 108-211) -/

deriving instance DecidableEq for Except

/-- The four error kinds the handlers produce: 400, 409, 404, 410. -/
inductive ApiErr
  | invalidInput
  | conflict
  | notFound
  | gone
deriving DecidableEq

/-- Success payload of `POST /shorten` (app.js lines 158-163); `shortCode`
stands for the `shortUrl` whose final path segment it is, the scheme/host
part coming from the transport layer. -/
structure CreateOk where
  shortCode : String
  originalUrl : String
  expiresAt : Nat
  customShortCodeUsed : Bool
deriving DecidableEq

/-- `parseInt(validityMinutes)` then the NaN/non-positive default (app.js
lines 139-142).  `none` stands for a missing value or one whose `parseInt`
is `NaN`; `some v` for a parse result `v`. -/
def effMinutes : Option Int → Nat
  | none => 30
  | some v => if v ≤ 0 then 30 else v.toNat

/-- Steps 3-5 of the `POST /shorten` handler once a code is chosen (app.js
lines 138-163): compute `expiresAt = Date.now() + minutes * 60 * 1000`, store
the record with `clicks: 0`, and answer 201. -/
def finishCreate (now : Nat) (db : Registry) (longUrl : String)
    (validityMinutes : Option Int) (shortCode : String) (usedCustom : Bool) :
    Except ApiErr CreateOk × Registry :=
  let expiry := now + effMinutes validityMinutes * 60000
  (Except.ok ⟨shortCode, longUrl, expiry, usedCustom⟩,
   setEntry db shortCode ⟨longUrl, expiry, usedCustom, 0⟩)

/-- The `POST /shorten` handler (app.js lines 108-164).  `p` is the
`new URL(longUrl)` parser of Node's `url` module (an external collaborator):
`p u = true` iff parsing does not throw.  `longUrl = none` is an absent field;
`customShortCode` falsy (absent or empty) selects the generator branch, as
`if (customShortCode)` does. -/
def create (p : String → Bool) (now : Nat) (db : Registry)
    (longUrl customShortCode : Option String) (validityMinutes : Option Int) :
    Except ApiErr CreateOk × Registry :=
  match longUrl with
  | none => (Except.error ApiErr.invalidInput, db)
  | some u =>
    if u = "" then (Except.error ApiErr.invalidInput, db)
    else if !p u then (Except.error ApiErr.invalidInput, db)
    else
      match customShortCode with
      | some c =>
        if c = "" then finishCreate now db u validityMinutes (generateShortCode db) false
        else if !isValidShortCode c then (Except.error ApiErr.invalidInput, db)
        else if (lookup db c).isSome then (Except.error ApiErr.conflict, db)
        else finishCreate now db u validityMinutes c true
      | none => finishCreate now db u validityMinutes (generateShortCode db) false

/-- The `GET /:shortCode` handler (app.js lines 170-193): 404 when absent;
when `new Date() > expiresAt` delete the entry and answer 410; otherwise
increment `clicks` and redirect to `originalUrl`. -/
def resolve (now : Nat) (db : Registry) (code : String) :
    Except ApiErr String × Registry :=
  match lookup db code with
  | none => (Except.error ApiErr.notFound, db)
  | some entry =>
    if entry.expiresAt < now then (Except.error ApiErr.gone, delEntry db code)
    else (Except.ok entry.originalUrl,
          setEntry db code ⟨entry.originalUrl, entry.expiresAt, entry.custom, entry.clicks + 1⟩)

/-- Body of the 200 answer of `GET /analytics/:shortCode` (app.js lines
204-210). -/
structure AnalyticsView where
  shortCode : String
  originalUrl : String
  clicks : Nat
  expiresAt : Nat
  customShortCodeUsed : Bool
deriving DecidableEq

/-- The `GET /analytics/:shortCode` handler (app.js lines 196-211): 404 when
absent, otherwise a snapshot of the record; no time is read and nothing is
written. -/
def report (db : Registry) (code : String) :
    Except ApiErr AnalyticsView × Registry :=
  match lookup db code with
  | none => (Except.error ApiErr.notFound, db)
  | some e => (Except.ok ⟨code, e.originalUrl, e.clicks, e.expiresAt, e.custom⟩, db)

/-- `n` sequential `GET /:shortCode` requests at time `now`, threading the
registry. -/
def resolveN (now : Nat) (code : String) : Nat → Registry → Registry
  | 0, db => db
  | n + 1, db => resolveN now code n (resolve now db code).2

/-! ### Helper lemmas -/

theorem finishCreate_ok_inv (now : Nat) (db : Registry) (u : String)
    (vm : Option Int) (code : String) (used : Bool) (r : CreateOk) (db1 : Registry)
    (h : finishCreate now db u vm code used = (Except.ok r, db1)) :
    r = ⟨code, u, now + effMinutes vm * 60000, used⟩ ∧
    db1 = setEntry db code ⟨u, now + effMinutes vm * 60000, used, 0⟩ := by
  simp only [finishCreate, Prod.mk.injEq, Except.ok.injEq] at h
  exact ⟨h.1.symm, h.2.symm⟩

theorem create_ok_inv (p : String → Bool) (now : Nat) (db : Registry)
    (longUrl customShortCode : Option String) (vm : Option Int)
    (r : CreateOk) (db1 : Registry)
    (h : create p now db longUrl customShortCode vm = (Except.ok r, db1)) :
    longUrl = some r.originalUrl ∧
    r.expiresAt = now + effMinutes vm * 60000 ∧
    db1 = setEntry db r.shortCode ⟨r.originalUrl, r.expiresAt, r.customShortCodeUsed, 0⟩ := by
  have main : ∀ (code : String) (used : Bool),
      finishCreate now db (longUrl.getD "") vm code used = (Except.ok r, db1) →
      longUrl.getD "" = r.originalUrl ∧
      r.expiresAt = now + effMinutes vm * 60000 ∧
      db1 = setEntry db r.shortCode ⟨r.originalUrl, r.expiresAt, r.customShortCodeUsed, 0⟩ := by
    intro code used hf
    obtain ⟨hr, hd⟩ := finishCreate_ok_inv now db _ vm code used r db1 hf
    subst hr
    subst hd
    exact ⟨rfl, rfl, rfl⟩
  rcases longUrl with _ | u
  · simp [create] at h
  · by_cases hu : u = ""
    · simp [create, hu] at h
    · by_cases hp : p u = true
      · rcases customShortCode with _ | c
        · simp only [create, hu, hp] at h
          simp only [if_neg hu, Bool.not_true, Bool.false_eq_true, if_false] at h
          obtain ⟨h1, h2, h3⟩ := main (generateShortCode db) false h
          exact ⟨by simpa using congrArg some h1, h2, h3⟩
        · by_cases hc : c = ""
          · simp only [create, hu, hp, hc] at h
            simp only [if_neg hu, Bool.not_true, Bool.false_eq_true, if_false, if_pos rfl] at h
            obtain ⟨h1, h2, h3⟩ := main (generateShortCode db) false h
            exact ⟨by simpa using congrArg some h1, h2, h3⟩
          · by_cases hv : isValidShortCode c = true
            · by_cases hl : (lookup db c).isSome
              · simp [create, hu, hp, hc, hv, hl] at h
              · simp only [create] at h
                rw [if_neg hu] at h
                simp only [hp, Bool.not_true, Bool.false_eq_true, if_false] at h
                rw [if_neg hc] at h
                simp only [hv, Bool.not_true, Bool.false_eq_true, if_false] at h
                rw [if_neg hl] at h
                obtain ⟨h1, h2, h3⟩ := main c true h
                exact ⟨by simpa using congrArg some h1, h2, h3⟩
            · simp [create, hu, hp, hc, hv] at h
      · simp [create, hu, hp] at h

theorem resolve_ok_of_live (now : Nat) (db : Registry) (code : String) (e : UrlRecord)
    (h : lookup db code = some e) (ht : ¬ e.expiresAt < now) :
    resolve now db code =
      (Except.ok e.originalUrl,
       setEntry db code ⟨e.originalUrl, e.expiresAt, e.custom, e.clicks + 1⟩) := by
  simp [resolve, h, ht]

theorem resolveN_lookup (now : Nat) (code : String) (n : Nat) :
    ∀ (db : Registry) (e : UrlRecord), lookup db code = some e → ¬ e.expiresAt < now →
      lookup (resolveN now code n db) code =
        some ⟨e.originalUrl, e.expiresAt, e.custom, e.clicks + n⟩ := by
  induction n with
  | zero =>
    intro db e h ht
    obtain ⟨url, exp, cu, k⟩ := e
    simpa [resolveN] using h
  | succ n ih =>
    intro db e h ht
    obtain ⟨url, exp, cu, k⟩ := e
    have hres : (resolve now db code).2 = setEntry db code ⟨url, exp, cu, k + 1⟩ := by
      rw [resolve_ok_of_live now db code _ h ht]
    simp only [resolveN, hres]
    have := ih (setEntry db code ⟨url, exp, cu, k + 1⟩) ⟨url, exp, cu, k + 1⟩
      (lookup_setEntry_self db code _) ht
    simpa [Nat.add_assoc, Nat.add_comm 1 n] using this

/-! ### Claims -/

/-- A concrete stand-in for the `new URL` parser, used to instantiate the
claims at concrete inputs. -/
def urlOkTest (s : String) : Bool := s == "https://example.com"

/-- A concrete registry entry used to instantiate the claims. -/
def sampleRecord : UrlRecord := ⟨"https://example.com", 100, false, 2⟩

/-- A concrete one-entry registry used to instantiate the claims. -/
def sampleDb : Registry := [("abcd", sampleRecord)]

/-- C1: for every valid absolute `longUrl` and no `customCode`, `create`
succeeds (201) with the generated short code, which matches the validator's
alphanumeric rule `^[A-Za-z0-9]+$`, and `resolve` called immediately after on
that code returns the same `longUrl`. -/
theorem create_noCustom_generates_alnum_and_resolves
    (p : String → Bool) (now : Nat) (db : Registry) (u : String) (vm : Option Int)
    (hu : u ≠ "") (hp : p u = true) :
    create p now db (some u) none vm =
      (Except.ok ⟨generateShortCode db, u, now + effMinutes vm * 60000, false⟩,
       setEntry db (generateShortCode db) ⟨u, now + effMinutes vm * 60000, false, 0⟩) ∧
    matchesAlnumRegex (generateShortCode db) = true ∧
    (resolve now
      (setEntry db (generateShortCode db) ⟨u, now + effMinutes vm * 60000, false, 0⟩)
      (generateShortCode db)).1 = Except.ok u := by
  refine ⟨by simp [create, hu, hp, finishCreate], generateShortCode_alnum db, ?_⟩
  rw [resolve_ok_of_live now _ (generateShortCode db) _
    (lookup_setEntry_self db (generateShortCode db) _)
    (Nat.not_lt.mpr (Nat.le_add_right now _))]

theorem create_noCustom_generates_alnum_and_resolves_witness :
    create urlOkTest 0 [] (some "https://example.com") none none =
      (Except.ok ⟨generateShortCode [], "https://example.com",
        0 + effMinutes none * 60000, false⟩,
       setEntry [] (generateShortCode [])
         ⟨"https://example.com", 0 + effMinutes none * 60000, false, 0⟩) ∧
    matchesAlnumRegex (generateShortCode []) = true ∧
    (resolve 0
      (setEntry [] (generateShortCode [])
        ⟨"https://example.com", 0 + effMinutes none * 60000, false, 0⟩)
      (generateShortCode [])).1 = Except.ok "https://example.com" :=
  create_noCustom_generates_alnum_and_resolves urlOkTest 0 [] "https://example.com"
    none (by decide) (by decide)

/-- C2: for a code present in the registry, `resolve` succeeds while the
current time has not passed `expiresAt` and answers Gone strictly after; the
Gone path deletes the entry, so on the resulting registry both `resolve` and
`report` answer NotFound. -/
theorem resolve_expiry_gone_and_eviction
    (db : Registry) (code : String) (e : UrlRecord) (now : Nat)
    (h : lookup db code = some e) :
    resolve now db code =
      (if now ≤ e.expiresAt
        then (Except.ok e.originalUrl,
              setEntry db code ⟨e.originalUrl, e.expiresAt, e.custom, e.clicks + 1⟩)
        else (Except.error ApiErr.gone, delEntry db code)) ∧
    lookup (delEntry db code) code = none ∧
    (∀ t2 : Nat, resolve t2 (delEntry db code) code =
      (Except.error ApiErr.notFound, delEntry db code)) ∧
    report (delEntry db code) code = (Except.error ApiErr.notFound, delEntry db code) := by
  have hdel := lookup_delEntry_self db code
  refine ⟨?_, hdel, fun t2 => by simp [resolve, hdel], by simp [report, hdel]⟩
  by_cases hlt : e.expiresAt < now
  · simp [resolve, h, hlt, Nat.not_le.mpr hlt]
  · simp [resolve, h, hlt, Nat.not_lt.mp hlt]

theorem resolve_expiry_gone_and_eviction_witness :
    resolve 200 sampleDb "abcd" =
      (if (200 : Nat) ≤ sampleRecord.expiresAt
        then (Except.ok sampleRecord.originalUrl,
              setEntry sampleDb "abcd"
                ⟨sampleRecord.originalUrl, sampleRecord.expiresAt,
                 sampleRecord.custom, sampleRecord.clicks + 1⟩)
        else (Except.error ApiErr.gone, delEntry sampleDb "abcd")) ∧
    lookup (delEntry sampleDb "abcd") "abcd" = none ∧
    (∀ t2 : Nat, resolve t2 (delEntry sampleDb "abcd") "abcd" =
      (Except.error ApiErr.notFound, delEntry sampleDb "abcd")) ∧
    report (delEntry sampleDb "abcd") "abcd" =
      (Except.error ApiErr.notFound, delEntry sampleDb "abcd") :=
  resolve_expiry_gone_and_eviction sampleDb "abcd" sampleRecord 200 (by decide)

/-- C3: for a code that is not a key of the registry, both `resolve` and
`report` answer NotFound and leave the registry unchanged. -/
theorem unknown_code_notFound (db : Registry) (code : String) (now : Nat)
    (h : lookup db code = none) :
    resolve now db code = (Except.error ApiErr.notFound, db) ∧
    report db code = (Except.error ApiErr.notFound, db) := by
  exact ⟨by simp [resolve, h], by simp [report, h]⟩

theorem unknown_code_notFound_witness :
    resolve 0 sampleDb "zzzz" = (Except.error ApiErr.notFound, sampleDb) ∧
    report sampleDb "zzzz" = (Except.error ApiErr.notFound, sampleDb) :=
  unknown_code_notFound sampleDb "zzzz" 0 (by decide)

/-- C4: with a well-formed `longUrl` and a `customCode` passing the validator,
`create` answers Conflict exactly when the code is already a key — whatever the
entry's expiry state, and without touching the registry — and otherwise
succeeds with that exact code and `usedCustomCode = true`. -/
theorem create_custom_conflict_iff
    (p : String → Bool) (now : Nat) (db : Registry) (u c : String) (vm : Option Int)
    (hu : u ≠ "") (hp : p u = true) (hv : isValidShortCode c = true) :
    create p now db (some u) (some c) vm =
      (if (lookup db c).isSome
        then (Except.error ApiErr.conflict, db)
        else (Except.ok ⟨c, u, now + effMinutes vm * 60000, true⟩,
              setEntry db c ⟨u, now + effMinutes vm * 60000, true, 0⟩)) := by
  have hc := isValidShortCode_ne_empty c hv
  by_cases hl : (lookup db c).isSome
  · simp [create, hu, hp, hc, hv, hl]
  · simp [create, hu, hp, hc, hv, hl, finishCreate]

theorem create_custom_conflict_iff_witness :
    create urlOkTest 0 sampleDb (some "https://example.com") (some "abcd") (some 5) =
      (if (lookup sampleDb "abcd").isSome
        then (Except.error ApiErr.conflict, sampleDb)
        else (Except.ok ⟨"abcd", "https://example.com",
                0 + effMinutes (some 5) * 60000, true⟩,
              setEntry sampleDb "abcd"
                ⟨"https://example.com", 0 + effMinutes (some 5) * 60000, true, 0⟩)) :=
  create_custom_conflict_iff urlOkTest 0 sampleDb "https://example.com" "abcd"
    (some 5) (by decide) (by decide) (by decide)

/-- C5 (counterexample to the claim as stated): the empty string is a supplied
`customCode` failing the validator, yet `create` does not answer InvalidInput —
`if (customShortCode)` is false for `""`, so the generator branch runs and the
request succeeds. -/
theorem validator_claim_empty_custom_counterexample :
    isValidShortCode "" = false ∧
    (create urlOkTest 0 [] (some "https://example.com") (some "") none).1 ≠
      Except.error ApiErr.invalidInput := by
  exact ⟨by decide, by decide⟩

/-- C5 (amended): `isValidCustomCode` is true exactly when the code matches
`^[A-Za-z0-9]+$` and its length lies in `[4, 15]`; and `create` with a supplied
nonempty `customCode` failing this predicate answers InvalidInput (an empty
`customCode` is instead treated as absent). -/
theorem validator_iff_and_nonempty_invalid_rejected
    (p : String → Bool) (now : Nat) (db : Registry) (u c : String) (vm : Option Int)
    (hu : u ≠ "") (hp : p u = true) (hc : c ≠ "") (hbad : isValidShortCode c = false) :
    (∀ s : String, isValidShortCode s = true ↔
      (matchesAlnumRegex s = true ∧ 4 ≤ s.length ∧ s.length ≤ 15)) ∧
    create p now db (some u) (some c) vm = (Except.error ApiErr.invalidInput, db) := by
  constructor
  · intro s
    constructor
    · intro hs
      by_cases hm : matchesAlnumRegex s = true
      · simp only [isValidShortCode, hm, Bool.not_true, Bool.false_eq_true, if_false] at hs
        refine ⟨hm, ?_, ?_⟩ <;>
          · by_contra hlen
            simp [show s.length < 4 ∨ s.length > 15 by omega] at hs
      · simp [isValidShortCode, hm] at hs
    · rintro ⟨hm, h4, h15⟩
      simp only [isValidShortCode, hm, Bool.not_true, Bool.false_eq_true, if_false]
      simp [show ¬ s.length < 4 by omega, show ¬ s.length > 15 by omega]
  · simp [create, hu, hp, hc, hbad]

theorem validator_iff_and_nonempty_invalid_rejected_witness :
    (∀ s : String, isValidShortCode s = true ↔
      (matchesAlnumRegex s = true ∧ 4 ≤ s.length ∧ s.length ≤ 15)) ∧
    create urlOkTest 0 [] (some "https://example.com") (some "ab") none =
      (Except.error ApiErr.invalidInput, []) :=
  validator_iff_and_nonempty_invalid_rejected urlOkTest 0 [] "https://example.com"
    "ab" none (by decide) (by decide) (by decide) (by decide)

/-- C6: `create` answers InvalidInput, inserting nothing, whenever `longUrl` is
absent or empty or the URL parser rejects it. -/
theorem create_rejects_bad_longUrl
    (p : String → Bool) (now : Nat) (db : Registry)
    (longUrl customShortCode : Option String) (vm : Option Int)
    (h : longUrl = none ∨ longUrl = some "" ∨
         ∃ u : String, longUrl = some u ∧ p u = false) :
    create p now db longUrl customShortCode vm = (Except.error ApiErr.invalidInput, db) := by
  rcases h with rfl | rfl | ⟨u, rfl, hput⟩
  · simp [create]
  · simp [create]
  · by_cases hu : u = ""
    · simp [create, hu]
    · simp [create, hu, hput]

theorem create_rejects_bad_longUrl_witness :
    create urlOkTest 0 sampleDb none none none =
      (Except.error ApiErr.invalidInput, sampleDb) :=
  create_rejects_bad_longUrl urlOkTest 0 sampleDb none none none (Or.inl rfl)

/-- C7: every successful `create` at time `now` stores and returns
`expiresAt = now + minutes * 60000` where `minutes` is the parsed
`validityMinutes`, replaced by 30 when missing, unparsable, or non-positive. -/
theorem create_expiry_formula
    (p : String → Bool) (now : Nat) (db : Registry)
    (longUrl customShortCode : Option String) (vm : Option Int)
    (r : CreateOk) (db1 : Registry)
    (h : create p now db longUrl customShortCode vm = (Except.ok r, db1)) :
    r.expiresAt = now + effMinutes vm * 60000 ∧
    lookup db1 r.shortCode =
      some ⟨r.originalUrl, now + effMinutes vm * 60000, r.customShortCodeUsed, 0⟩ ∧
    effMinutes none = 30 ∧
    (∀ v : Int, effMinutes (some v) = if v ≤ 0 then 30 else v.toNat) := by
  obtain ⟨hlu, hexp, hdb⟩ := create_ok_inv p now db longUrl customShortCode vm r db1 h
  refine ⟨hexp, ?_, rfl, fun v => rfl⟩
  rw [hdb, ← hexp]
  exact lookup_setEntry_self db r.shortCode _

theorem create_expiry_formula_witness :
    (⟨"abcd", "https://example.com", 300000, true⟩ : CreateOk).expiresAt =
      0 + effMinutes (some 5) * 60000 ∧
    lookup [("abcd", (⟨"https://example.com", 300000, true, 0⟩ : UrlRecord))]
      (⟨"abcd", "https://example.com", 300000, true⟩ : CreateOk).shortCode =
      some ⟨"https://example.com", 0 + effMinutes (some 5) * 60000, true, 0⟩ ∧
    effMinutes none = 30 ∧
    (∀ v : Int, effMinutes (some v) = if v ≤ 0 then 30 else v.toNat) :=
  create_expiry_formula urlOkTest 0 [] (some "https://example.com") (some "abcd")
    (some 5) ⟨"abcd", "https://example.com", 300000, true⟩
    [("abcd", ⟨"https://example.com", 300000, true, 0⟩)] (by decide)

/-- C8: a record's click count starts at 0 at creation and each successful
`resolve` adds exactly 1, so `n` sequential successful resolves on a live code
make `report` answer `clicks = n`. -/
theorem clicks_start_zero_and_count_resolves
    (p : String → Bool) (t : Nat) (db : Registry)
    (longUrl customShortCode : Option String) (vm : Option Int)
    (r : CreateOk) (db1 : Registry) (now : Nat)
    (hc : create p t db longUrl customShortCode vm = (Except.ok r, db1))
    (hnow : now ≤ r.expiresAt) :
    lookup db1 r.shortCode = some ⟨r.originalUrl, r.expiresAt, r.customShortCodeUsed, 0⟩ ∧
    (∀ n : Nat, lookup (resolveN now r.shortCode n db1) r.shortCode =
      some ⟨r.originalUrl, r.expiresAt, r.customShortCodeUsed, n⟩) ∧
    (∀ n : Nat, (resolve now (resolveN now r.shortCode n db1) r.shortCode).1 =
      Except.ok r.originalUrl) ∧
    (∀ n : Nat, (report (resolveN now r.shortCode n db1) r.shortCode).1 =
      Except.ok ⟨r.shortCode, r.originalUrl, n, r.expiresAt, r.customShortCodeUsed⟩) := by
  obtain ⟨hlu, hexp, hdb⟩ := create_ok_inv p t db longUrl customShortCode vm r db1 hc
  have h0 : lookup db1 r.shortCode =
      some ⟨r.originalUrl, r.expiresAt, r.customShortCodeUsed, 0⟩ := by
    rw [hdb]
    exact lookup_setEntry_self db r.shortCode _
  have hn : ∀ n : Nat, lookup (resolveN now r.shortCode n db1) r.shortCode =
      some ⟨r.originalUrl, r.expiresAt, r.customShortCodeUsed, n⟩ := by
    intro n
    simpa using resolveN_lookup now r.shortCode n db1 _ h0 (Nat.not_lt.mpr hnow)
  refine ⟨h0, hn, fun n => ?_, fun n => by simp [report, hn n]⟩
  rw [resolve_ok_of_live now _ r.shortCode _ (hn n) (Nat.not_lt.mpr hnow)]

theorem clicks_start_zero_and_count_resolves_witness :
    lookup [("abcd", (⟨"https://example.com", 300000, true, 0⟩ : UrlRecord))] "abcd" =
      some ⟨"https://example.com", 300000, true, 0⟩ ∧
    (∀ n : Nat,
      lookup (resolveN 7 "abcd" n
        [("abcd", (⟨"https://example.com", 300000, true, 0⟩ : UrlRecord))]) "abcd" =
      some ⟨"https://example.com", 300000, true, n⟩) ∧
    (∀ n : Nat,
      (resolve 7 (resolveN 7 "abcd" n
        [("abcd", (⟨"https://example.com", 300000, true, 0⟩ : UrlRecord))]) "abcd").1 =
      Except.ok "https://example.com") ∧
    (∀ n : Nat,
      (report (resolveN 7 "abcd" n
        [("abcd", (⟨"https://example.com", 300000, true, 0⟩ : UrlRecord))]) "abcd").1 =
      Except.ok ⟨"abcd", "https://example.com", n, 300000, true⟩) :=
  clicks_start_zero_and_count_resolves urlOkTest 0 [] (some "https://example.com")
    (some "abcd") (some 5) ⟨"abcd", "https://example.com", 300000, true⟩
    [("abcd", ⟨"https://example.com", 300000, true, 0⟩)] 7 (by decide) (by decide)

/-- C9: `report` never writes: for any registry it returns the registry
unchanged; on a present code — whether expired or not, no time is consulted —
it answers the record's snapshot, and calling it again gives the same answer. -/
theorem report_pure_snapshot
    (db : Registry) (code : String) (e : UrlRecord)
    (h : lookup db code = some e) :
    (∀ (d : Registry) (c : String), (report d c).2 = d) ∧
    report db code =
      (Except.ok ⟨code, e.originalUrl, e.clicks, e.expiresAt, e.custom⟩, db) ∧
    report (report db code).2 code = report db code := by
  have hsnd : ∀ (d : Registry) (c : String), (report d c).2 = d := by
    intro d c
    cases hl : lookup d c <;> simp [report, hl]
  exact ⟨hsnd, by simp [report, h], by rw [hsnd]⟩

theorem report_pure_snapshot_witness :
    (∀ (d : Registry) (c : String), (report d c).2 = d) ∧
    report sampleDb "abcd" =
      (Except.ok ⟨"abcd", sampleRecord.originalUrl, sampleRecord.clicks,
        sampleRecord.expiresAt, sampleRecord.custom⟩, sampleDb) ∧
    report (report sampleDb "abcd").2 "abcd" = report sampleDb "abcd" :=
  report_pure_snapshot sampleDb "abcd" sampleRecord (by decide)

/-- C10: a `customCode` supplied as the empty string is treated exactly as an
absent one: `create` behaves identically, and on a valid URL it succeeds with a
generated code and `usedCustomCode = false`. -/
theorem empty_custom_treated_as_absent
    (p : String → Bool) (now : Nat) (db : Registry) (u : String) (vm : Option Int)
    (hu : u ≠ "") (hp : p u = true) :
    (∀ (d : Registry) (lu : Option String) (vm2 : Option Int),
       create p now d lu (some "") vm2 = create p now d lu none vm2) ∧
    create p now db (some u) (some "") vm =
      (Except.ok ⟨generateShortCode db, u, now + effMinutes vm * 60000, false⟩,
       setEntry db (generateShortCode db) ⟨u, now + effMinutes vm * 60000, false, 0⟩) := by
  constructor
  · intro d lu vm2
    rcases lu with _ | u2
    · simp [create]
    · by_cases hu2 : u2 = ""
      · simp [create, hu2]
      · by_cases hp2 : p u2 = true <;> simp [create, hu2, hp2]
  · simp [create, hu, hp, finishCreate]

theorem empty_custom_treated_as_absent_witness :
    (∀ (d : Registry) (lu : Option String) (vm2 : Option Int),
       create urlOkTest 0 d lu (some "") vm2 = create urlOkTest 0 d lu none vm2) ∧
    create urlOkTest 0 [] (some "https://example.com") (some "") none =
      (Except.ok ⟨generateShortCode [], "https://example.com",
        0 + effMinutes none * 60000, false⟩,
       setEntry [] (generateShortCode [])
         ⟨"https://example.com", 0 + effMinutes none * 60000, false, 0⟩) :=
  empty_custom_treated_as_absent urlOkTest 0 [] "https://example.com" none
    (by decide) (by decide)
